import Mathlib

/-!
Verification of the JSON-RPC stdio test harness in
src/scripts/test-mcp-protocol.py.

The harness spawns the MCP server binary, exchanges newline-delimited
JSON-RPC messages over its stdio streams, runs four fixed test steps
(initialize, tools/list, get_status, search_code), tallies passed/failed
counts, and maps the tally to a process exit status.

The shallow embedding below models:
 * JSON values, Python json.dumps (default separators) and json.loads
   restricted to the grammar this harness actually exchanges
   (objects, arrays, strings with simple escapes, integers, literals);
 * Python run-time semantics of the dictionary/list/string accesses the
   step bodies perform (truthiness, `in`, indexing, .get, len, slicing,
   .lower), with raised exceptions as Except.error;
 * send_jsonrpc, read_jsonrpc and the four test steps of
   test_mcp_server, plus the reporter and the shutdown path.
-/

/-- JSON values as decoded by json.loads / encoded by json.dumps.
Numbers are restricted to integers: every number this harness sends or
inspects is an integer literal. -/
inductive Json where
  | null
  | bool (b : Bool)
  | num (n : Int)
  | str (s : String)
  | arr (elems : List Json)
  | obj (members : List (String × Json))

/-- Opening brace character, written via its code point. -/
def braceL : Char := Char.ofNat 123

/-- Closing brace character, written via its code point. -/
def braceR : Char := Char.ofNat 125

/-- Decimal digits of a natural number (json.dumps integer output). -/
def natDump (fuel n : Nat) : String :=
  match fuel with
  | 0 => ""
  | fuel + 1 =>
    if n < 10 then String.singleton (Char.ofNat (48 + n))
    else natDump fuel (n / 10) ++ String.singleton (Char.ofNat (48 + n % 10))

/-- json.dumps rendering of an integer. -/
def intDump : Int → String
  | .ofNat n => natDump (n + 1) n
  | .negSucc n => "-" ++ natDump (n + 2) (n + 1)

/-- json.dumps escape for a single character inside a string literal
(the subset of escapes this harness's strings can need). -/
def escapeChar (c : Char) : String :=
  if c = '"' then "\\\""
  else if c = '\\' then "\\\\"
  else if c = '\n' then "\\n"
  else if c = '\t' then "\\t"
  else if c = '\r' then "\\r"
  else String.singleton c

/-- json.dumps body of a string literal. -/
def escapeStr (s : String) : String :=
  s.data.foldl (fun acc c => acc ++ escapeChar c) ""

/-- json.dumps rendering of a string, quotes included. -/
def quoteStr (s : String) : String :=
  "\"" ++ escapeStr s ++ "\""

mutual

/-- Model of Python json.dumps with its default separators: members are
joined by a comma and a space, keys are separated from values by a colon
and a space, exactly as the harness's request lines are produced. -/
def dumps : Json → String
  | .null => "null"
  | .bool true => "true"
  | .bool false => "false"
  | .num n => intDump n
  | .str s => quoteStr s
  | .arr xs => "[" ++ dumpsItems xs ++ "]"
  | .obj kvs => String.singleton braceL ++ dumpsMembers kvs ++ String.singleton braceR

/-- Comma-and-space separated array items of json.dumps. -/
def dumpsItems : List Json → String
  | [] => ""
  | [x] => dumps x
  | x :: y :: xs => dumps x ++ ", " ++ dumpsItems (y :: xs)

/-- Comma-and-space separated object members of json.dumps. -/
def dumpsMembers : List (String × Json) → String
  | [] => ""
  | [(k, v)] => quoteStr k ++ ": " ++ dumps v
  | (k, v) :: m :: rest => quoteStr k ++ ": " ++ dumps v ++ ", " ++ dumpsMembers (m :: rest)

end

/-- JSON insignificant whitespace. -/
def isWsChar (c : Char) : Bool :=
  c = ' ' || c = '\n' || c = '\t' || c = '\r'

/-- Drop leading insignificant whitespace. -/
def skipWs : List Char → List Char
  | [] => []
  | c :: cs => if isWsChar c then skipWs cs else c :: cs

/-- Inverse of the json.dumps escapes handled by this model. -/
def escDecode (c : Char) : Option Char :=
  if c = '"' then some '"'
  else if c = '\\' then some '\\'
  else if c = '/' then some '/'
  else if c = 'n' then some '\n'
  else if c = 't' then some '\t'
  else if c = 'r' then some '\r'
  else none

/-- Parse the body of a JSON string literal (after the opening quote),
returning the decoded string and the input after the closing quote. -/
def parseStrChars : List Char → Option (String × List Char)
  | [] => none
  | c :: rest =>
    if c = '"' then some ("", rest)
    else if c = '\\' then
      match rest with
      | [] => none
      | e :: rest2 =>
        match escDecode e with
        | none => none
        | some d =>
          match parseStrChars rest2 with
          | some (s, r) => some (String.singleton d ++ s, r)
          | none => none
    else
      match parseStrChars rest with
      | some (s, r) => some (String.singleton c ++ s, r)
      | none => none

/-- Take the maximal run of decimal digits. -/
def takeDigits : List Char → (List Char × List Char)
  | [] => ([], [])
  | c :: cs =>
    if c.isDigit then
      let (ds, r) := takeDigits cs
      (c :: ds, r)
    else ([], c :: cs)

/-- Numeric value of a digit run. -/
def digitsVal (ds : List Char) : Nat :=
  ds.foldl (fun acc c => acc * 10 + (c.toNat - 48)) 0

/-- Parse a non-container JSON value: string, literal, or integer. -/
def parseAtom (cs : List Char) : Option (Json × List Char) :=
  match skipWs cs with
  | [] => none
  | c :: rest =>
    if c = '"' then
      match parseStrChars rest with
      | some (s, r) => some (.str s, r)
      | none => none
    else if c = 'n' then
      match rest with
      | 'u' :: 'l' :: 'l' :: r => some (.null, r)
      | _ => none
    else if c = 't' then
      match rest with
      | 'r' :: 'u' :: 'e' :: r => some (.bool true, r)
      | _ => none
    else if c = 'f' then
      match rest with
      | 'a' :: 'l' :: 's' :: 'e' :: r => some (.bool false, r)
      | _ => none
    else if c = '-' then
      match takeDigits rest with
      | ([], _) => none
      | (d :: ds, r) => some (.num (-(Int.ofNat (digitsVal (d :: ds)))), r)
    else if c.isDigit then
      match takeDigits (c :: rest) with
      | (ds, r) => some (.num (Int.ofNat (digitsVal ds)), r)
    else none

/-- Parse the members of a JSON object given a parser for values;
`fuel` bounds the number of members. -/
def parseMembersWith (pv : List Char → Option (Json × List Char)) :
    Nat → List Char → Option (List (String × Json) × List Char)
  | 0, _ => none
  | fuel + 1, cs =>
    match skipWs cs with
    | [] => none
    | c :: rest =>
      if c = '"' then
        match parseStrChars rest with
        | none => none
        | some (k, r1) =>
          match skipWs r1 with
          | ':' :: r2 =>
            match pv r2 with
            | none => none
            | some (v, r3) =>
              match skipWs r3 with
              | ',' :: r4 =>
                match parseMembersWith pv fuel r4 with
                | some (kvs, r5) => some ((k, v) :: kvs, r5)
                | none => none
              | d :: r4 =>
                if d = braceR then some ([(k, v)], r4) else none
              | [] => none
          | _ => none
      else none

/-- Parse the items of a JSON array given a parser for values;
`fuel` bounds the number of items. -/
def parseItemsWith (pv : List Char → Option (Json × List Char)) :
    Nat → List Char → Option (List Json × List Char)
  | 0, _ => none
  | fuel + 1, cs =>
    match pv cs with
    | none => none
    | some (v, r1) =>
      match skipWs r1 with
      | ',' :: r2 =>
        match parseItemsWith pv fuel r2 with
        | some (xs, r3) => some (v :: xs, r3)
        | none => none
      | ']' :: r2 => some ([v], r2)
      | _ => none

/-- Parse one JSON value whose nested values are parsed by `pv`. -/
def parseValWith (pv : List Char → Option (Json × List Char))
    (cs : List Char) : Option (Json × List Char) :=
  match skipWs cs with
  | [] => none
  | c :: rest =>
    if c = braceL then
      match skipWs rest with
      | [] => none
      | d :: r' =>
        if d = braceR then some (.obj [], r')
        else
          match parseMembersWith pv (rest.length + 1) rest with
          | some (kvs, r2) => some (.obj kvs, r2)
          | none => none
    else if c = '[' then
      match skipWs rest with
      | [] => none
      | d :: r' =>
        if d = ']' then some (.arr [], r')
        else
          match parseItemsWith pv (rest.length + 1) rest with
          | some (xs, r2) => some (.arr xs, r2)
          | none => none
    else parseAtom cs

/-- JSON value parser, indexed by the maximal nesting depth. -/
def parseDepth : Nat → List Char → Option (Json × List Char)
  | 0, _ => none
  | d + 1, cs => parseValWith (parseDepth d) cs

/-- Model of Python json.loads on the grammar this harness exchanges:
the whole input must be one JSON document, with leading or trailing
whitespace (such as the newline terminating each protocol line)
tolerated; anything else fails, which the caller treats as a
recoverable decode error. -/
def loads (s : String) : Option Json :=
  match parseDepth (s.length + 1) s.data with
  | some (j, rest) => if skipWs rest = [] then some j else none
  | none => none

example : dumps (.arr [.num 1, .num (-2)]) = "[1, -2]" := by rfl

example : dumps (.obj [("a", .num 999), ("b", .obj [])]) =
    "\x7b\"a\": 999, \"b\": \x7b\x7d\x7d" := by rfl

example : loads "\x7b\"a\": 999, \"b\": \x7b\x7d\x7d" =
    some (.obj [("a", .num 999), ("b", .obj [])]) := by rfl

example : loads "not json" = none := by rfl

example : loads " [1, \"x\", true, null] \n" =
    some (.arr [.num 1, .str "x", .bool true, .null]) := by rfl

/-! ## Python value semantics for the accesses the harness performs -/

/-- Python truthiness of a decoded JSON value: None, False, 0, empty
string, empty list and empty dict are falsy, everything else truthy. -/
def truthy : Json → Bool
  | .null => false
  | .bool b => b
  | .num n => decide (n ≠ 0)
  | .str s => !s.isEmpty
  | .arr xs => !xs.isEmpty
  | .obj kvs => !kvs.isEmpty

/-- Dictionary lookup; on duplicate keys the last binding wins, as in a
dict built by json.loads. -/
def lookupKey : List (String × Json) → String → Option Json
  | [], _ => none
  | (k', v) :: rest, k =>
    match lookupKey rest k with
    | some w => some w
    | none => if k' = k then some v else none

/-- Key lookup on a JSON object, none on any other shape (used to state
properties; the py* functions below model the run-time accesses). -/
def jsonGet (j : Json) (k : String) : Option Json :=
  match j with
  | .obj kvs => lookupKey kvs k
  | _ => none

/-- Equality test of a JSON value against a string, as Python == between
a list element and a query string. -/
def isStrVal (x : Json) (k : String) : Bool :=
  match x with
  | .str s => s = k
  | _ => false

/-- Does the character list start with the given pattern? -/
def startsWithChars : List Char → List Char → Bool
  | _, [] => true
  | [], _ :: _ => false
  | c :: cs, d :: ds => c = d && startsWithChars cs ds

/-- Does the pattern occur as a contiguous run of the character list? -/
def containsChars : List Char → List Char → Bool
  | [], k => startsWithChars [] k
  | c :: rest, k => startsWithChars (c :: rest) k || containsChars rest k

/-- Substring test, as Python `k in s` on strings. -/
def strContains (s k : String) : Bool :=
  containsChars s.data k.data

/-- Python `k in j`: key test on a dict, membership on a list, substring
test on a string; TypeError on non-container values. -/
def pyIn (k : String) : Json → Except String Bool
  | .obj kvs => .ok (kvs.any (fun kv => kv.1 = k))
  | .arr xs => .ok (xs.any (fun x => isStrVal x k))
  | .str s => .ok (strContains s k)
  | _ => .error "TypeError"

/-- Python `j[k]` with a string key: dict lookup (KeyError when the key
is missing), TypeError on every other shape. -/
def pyIndexKey : Json → String → Except String Json
  | .obj kvs, k =>
    match lookupKey kvs k with
    | some v => .ok v
    | none => .error "KeyError"
  | _, _ => .error "TypeError"

/-- Python `j.get(k, d)`: defaulting dict lookup; AttributeError on any
value that is not a dict. -/
def pyGet : Json → String → Json → Except String Json
  | .obj kvs, k, d => .ok ((lookupKey kvs k).getD d)
  | _, _, _ => .error "AttributeError"

/-- Python `j[0]`: first element of a list (IndexError when empty),
first character of a string, KeyError on a dict whose keys are strings,
TypeError otherwise. -/
def pyIndexZero : Json → Except String Json
  | .arr (x :: _) => .ok x
  | .arr [] => .error "IndexError"
  | .str s =>
    match s.data with
    | c :: _ => .ok (.str (String.singleton c))
    | [] => .error "IndexError"
  | .obj _ => .error "KeyError"
  | _ => .error "TypeError"

/-- Python `len(j)`: length of a list, string or dict, TypeError
otherwise. -/
def pyLen : Json → Except String Nat
  | .arr xs => .ok xs.length
  | .str s => .ok s.length
  | .obj kvs => .ok kvs.length
  | _ => .error "TypeError"

/-- Python `j[:5]`: first five elements of a list or characters of a
string; TypeError otherwise (slicing a dict is a TypeError). -/
def pySliceFive : Json → Except String (List Json)
  | .arr xs => .ok (xs.take 5)
  | .str s => .ok ((s.data.take 5).map (fun c => Json.str (String.singleton c)))
  | _ => .error "TypeError"

/-- Python `j.lower()`: lower-cased string; AttributeError on any value
that is not a string. -/
def pyLower : Json → Except String String
  | .str s => .ok s.toLower
  | _ => .error "AttributeError"

/-! ## send_jsonrpc and the four step requests -/

/-- Model of send_jsonrpc (src/scripts/test-mcp-protocol.py lines
13-27): the request dict is built with members jsonrpc, method, id in
insertion order, and `if params:` appends a params member only when the
params argument is truthy — so None and the empty dict both leave the
member out. -/
def send_jsonrpc (method : String) (params : Option Json) (id : Int) : Json :=
  .obj ([("jsonrpc", .str "2.0"), ("method", .str method), ("id", .num id)] ++
    (match params with
     | some p => if truthy p then [("params", p)] else []
     | none => []))

/-- The newline-terminated line written to the subprocess's stdin:
json.dumps(request) + a newline (line 23). -/
def request_line (method : String) (params : Option Json) (id : Int) : String :=
  dumps (send_jsonrpc method params id) ++ "\n"

/-- The params of Test 1 (lines 79-86). -/
def initParams : Json :=
  .obj [("protocolVersion", .str "2024-11-05"),
        ("capabilities", .obj []),
        ("clientInfo", .obj [("name", .str "test-client"),
                             ("version", .str "1.0.0")])]

/-- The request of Test 1: method initialize, id 1. -/
def initRequest : Json := send_jsonrpc "initialize" (some initParams) 1

/-- The request of Test 2 (line 102): tools/list with params `{}`. -/
def toolsListRequest : Json := send_jsonrpc "tools/list" (some (.obj [])) 2

/-- The params of Test 3 (lines 121-124). -/
def getStatusParams : Json :=
  .obj [("name", .str "get_status"), ("arguments", .obj [])]

/-- The request of Test 3: tools/call get_status, id 3. -/
def getStatusRequest : Json := send_jsonrpc "tools/call" (some getStatusParams) 3

/-- The params of Test 4 (lines 149-155). -/
def searchCodeParams : Json :=
  .obj [("name", .str "search_code"),
        ("arguments", .obj [("query", .str "engine"), ("limit", .num 3)])]

/-- The request of Test 4: tools/call search_code, id 4. -/
def searchCodeRequest : Json := send_jsonrpc "tools/call" (some searchCodeParams) 4

/-! ## read_jsonrpc -/

/-- Outcome of one read_jsonrpc call: either the call returns a value
(the decoded response or None) at a wall-clock time, leaving the
not-yet-consumed stdout lines, or it never returns because readline
blocks forever on an open, silent stream. -/
inductive ReadOutcome where
  | returns (response : Option Json) (time : Nat) (rest : List (Nat × String))
  | hangs

/-- Model of read_jsonrpc's polling loop (lines 31-40). The stream
state is the list of stdout lines not yet consumed, each with its
arrival time, in arrival order; `closed` means the stream reaches
end-of-file after them. The loop checks `time.time() - start < timeout`
(here `now < deadline`) and then calls readline, which

 * returns the next line at its arrival time when one exists (blocking
   past the deadline if need be: the deadline is only rechecked between
   lines, so a line arriving after the deadline is still consumed);
 * at end-of-file returns an empty string immediately, so the loop
   spins, the wall clock advancing, until the deadline elapses — the
   net effect, written in closed form so the definition computes, is
   returning None once `max now deadline` is reached;
 * on an open stream with no line available blocks forever.

A line that json.loads rejects is skipped and the loop continues
(`except json.JSONDecodeError: continue`). -/
def readLoop (deadline now : Nat) (lines : List (Nat × String)) (closed : Bool) :
    ReadOutcome :=
  if now < deadline then
    match lines with
    | [] => if closed then .returns none (max now deadline) [] else .hangs
    | (a, s) :: rest =>
      match loads s with
      | some j => .returns (some j) (max now a) rest
      | none => readLoop deadline (max now a) rest closed
  else .returns none now lines

/-- read_jsonrpc (lines 29-40) with its start time and timeout; the
deadline is start + timeout. -/
def read_jsonrpc (start timeout : Nat) (lines : List (Nat × String))
    (closed : Bool) : ReadOutcome :=
  readLoop (start + timeout) start lines closed

/-! ## The four test steps of test_mcp_server (lines 77-176)

Each step is modeled as a function from the value read_jsonrpc returned
(None or a decoded response) to the step's verdict: `Except.ok true`
when the passed counter is incremented, `Except.ok false` when the
failed counter is incremented, and `Except.error e` when the step body
raises — which the surrounding `except Exception` turns into an abort
of the whole scenario (lines 193-197). The print statements are kept
only insofar as they perform accesses that can raise. -/

/-- Python `if response and "result" in response:` shared by all four
steps: None (and any falsy value) short-circuits to False; otherwise
the membership test runs, raising TypeError on non-container values. -/
def hasResultCheck (response : Option Json) : Except String Bool :=
  match response with
  | none => .ok false
  | some j => if truthy j then pyIn "result" j else .ok false

/-- Test 1, MCP Initialize (lines 78-98): passes iff the response is
truthy and carries a result member; the pass branch reads
result.serverInfo.name and .version for the log line, raising if the
result member is not a dict. -/
def initStep (response : Option Json) : Except String Bool := do
  let cond ← hasResultCheck response
  if cond then do
    let result ← pyIndexKey (response.getD .null) "result"
    let si1 ← pyGet result "serverInfo" (.obj [])
    let _ ← pyGet si1 "name" (.str "unknown")
    let result2 ← pyIndexKey (response.getD .null) "result"
    let si2 ← pyGet result2 "serverInfo" (.obj [])
    let _ ← pyGet si2 "version" (.str "unknown")
    pure true
  else pure false

/-- Test 2, List Tools (lines 100-117): passes iff the response is
truthy and carries a result member; the pass branch reads
result.get("tools", []), takes len, and shows the first five names. -/
def toolsListStep (response : Option Json) : Except String Bool := do
  let cond ← hasResultCheck response
  if cond then do
    let result ← pyIndexKey (response.getD .null) "result"
    let tools ← pyGet result "tools" (.arr [])
    let _ ← pyLen tools
    let firstFive ← pySliceFive tools
    let _ ← firstFive.mapM (fun t => pyGet t "name" (.str "unknown"))
    let _ ← pyLen tools
    pure true
  else pure false

/-- Test 3, get_status (lines 119-145): with a result member present,
reads result.get("content", []); a truthy content passes (after probing
content[0].get("text","").lower() for the log), an empty content fails. -/
def getStatusStep (response : Option Json) : Except String Bool := do
  let cond ← hasResultCheck response
  if cond then do
    let result ← pyIndexKey (response.getD .null) "result"
    let content ← pyGet result "content" (.arr [])
    if truthy content then do
      let c0 ← pyIndexZero content
      let statusText ← pyGet c0 "text" (.str "")
      let lowered ← pyLower statusText
      let _ := strContains lowered "chunks"
      let _ := strContains lowered "files"
      pure true
    else pure false
  else pure false

/-- Test 4, search_code (lines 147-176): with a result member present,
reads result.get("content", []); when content is truthy, BOTH branches
of the inner `if result_text:` record a pass (an empty text is "may be
normal for empty index"); an empty or absent content records a fail. -/
def searchCodeStep (response : Option Json) : Except String Bool := do
  let cond ← hasResultCheck response
  if cond then do
    let result ← pyIndexKey (response.getD .null) "result"
    let content ← pyGet result "content" (.arr [])
    if truthy content then do
      let c0 ← pyIndexZero content
      let resultText ← pyGet c0 "text" (.str "")
      if truthy resultText then do
        let _ ← pyLen resultText
        pure true
      else pure true
    else pure false
  else pure false

/-! ## Runner, reporter and exit status -/

/-- The straight-line body of test_mcp_server (lines 74-184) as a
function of the four values read_jsonrpc returned: each step's verdict
increments exactly one of the two counters, steps run in order, and a
raised exception aborts the remaining steps (propagating to the
`except Exception` handler). Returns (tests_passed, tests_failed). -/
def run_tests (r1 r2 r3 r4 : Option Json) : Except String (Nat × Nat) := do
  let v1 ← initStep r1
  let (p1, f1) := if v1 then (1, 0) else (0, 1)
  let v2 ← toolsListStep r2
  let (p2, f2) := if v2 then (p1 + 1, f1) else (p1, f1 + 1)
  let v3 ← getStatusStep r3
  let (p3, f3) := if v3 then (p2 + 1, f2) else (p2, f2 + 1)
  let v4 ← searchCodeStep r4
  let (p4, f4) := if v4 then (p3 + 1, f3) else (p3, f3 + 1)
  pure (p4, f4)

/-- Reporter's success rate (lines 182-184):
`(tests_passed / total * 100) if total > 0 else 0`. -/
def success_rate (p f : Nat) : ℚ :=
  if 0 < p + f then (p : ℚ) / ((p + f : Nat) : ℚ) * 100 else 0

/-- test_mcp_server's return value (lines 186-197): True iff no test
failed; a caught exception returns False. -/
def test_mcp_server (r1 r2 r3 r4 : Option Json) : Bool :=
  match run_tests r1 r2 r3 r4 with
  | .ok (_, f) => f == 0
  | .error _ => false

/-- The harness exit status (lines 209-211):
`sys.exit(0 if success else 1)`. -/
def harness_exit (r1 r2 r3 r4 : Option Json) : Nat :=
  if test_mcp_server r1 r2 r3 r4 then 0 else 1

/-! ## Shutdown path (lines 199-207) -/

/-- The grace period passed to process.wait (line 204). -/
def gracePeriod : Nat := 5

/-- How the scenario body ended: a normal return with a success flag,
or an exception raised by scenario logic. -/
inductive BodyOutcome where
  | finished (success : Bool)
  | raised

/-- What the finally block did: whether cooperative termination was
requested, whether the forced kill ran, and how long the whole
shutdown took. -/
structure ShutdownTrace where
  termRequested : Bool
  forcedKill : Bool
  duration : Nat

/-- Model of the finally block (lines 199-207): process.terminate()
requests cooperative shutdown, process.wait(timeout=5) waits up to the
grace period, and on TimeoutExpired process.kill() force-kills, which
takes a bounded overhead `killCost`. `exitsAfter` is the time the
subprocess takes to exit after the terminate request, none when it
ignores the request entirely. -/
def terminate_shutdown (exitsAfter : Option Nat) (killCost : Nat) : ShutdownTrace :=
  match exitsAfter with
  | some t =>
    if t ≤ gracePeriod then ⟨true, false, t⟩
    else ⟨true, true, gracePeriod + killCost⟩
  | none => ⟨true, true, gracePeriod + killCost⟩

/-- test_mcp_server's try/except/finally skeleton (lines 69-207): the
body either finishes with a success flag or raises; the except clause
converts a raise into a False return; the finally clause runs the
shutdown on both paths. -/
def run_with_cleanup (body : BodyOutcome) (exitsAfter : Option Nat)
    (killCost : Nat) : Bool × ShutdownTrace :=
  match body with
  | .finished b => (b, terminate_shutdown exitsAfter killCost)
  | .raised => (false, terminate_shutdown exitsAfter killCost)

/-! ## Concrete fixtures used by witnesses and counterexamples -/

set_option maxRecDepth 100000

/-- A well-formed JSON-RPC response whose id (999) matches no request
this harness ever sends. -/
def staleResponse : Json :=
  .obj [("jsonrpc", .str "2.0"), ("id", .num 999), ("result", .obj [])]

/-- The stdout line carrying staleResponse. -/
def staleLine : String := dumps staleResponse ++ "\n"

/-- A stdout line that is not JSON (interleaved subprocess noise). -/
def junkLine : String := "omnicontext: warming up\n"

/-- A response whose result member is present but is a number, not an
object: `"result" in response` succeeds, but the pass branch's
`response["result"].get(...)` raises AttributeError. -/
def badResultResponse : Json :=
  .obj [("jsonrpc", .str "2.0"), ("id", .num 1), ("result", .num 5)]

/-- A well-formed initialize response. -/
def okInitResponse : Json :=
  .obj [("jsonrpc", .str "2.0"), ("id", .num 1),
        ("result", .obj [("serverInfo",
          .obj [("name", .str "omnicontext-mcp"), ("version", .str "0.1.0")])])]

/-- A well-formed get_status response with one content block. -/
def statusResponse : Json :=
  .obj [("jsonrpc", .str "2.0"), ("id", .num 3),
        ("result", .obj [("content",
          .arr [.obj [("text", .str "Indexed 12 files, 340 chunks")]])])]

/-- A well-formed search_code response whose result is present but whose
content sequence is empty. -/
def emptyContentResponse : Json :=
  .obj [("jsonrpc", .str "2.0"), ("id", .num 4),
        ("result", .obj [("content", .arr [])])]

/-- A well-formed search_code response with one content block whose text
is empty (the empty-index outcome). -/
def emptyTextResponse : Json :=
  .obj [("jsonrpc", .str "2.0"), ("id", .num 4),
        ("result", .obj [("content", .arr [.obj [("text", .str "")]])])]

/-! ## Helper lemmas about the read loop -/

/-- The wall-clock time after the loop has consumed a run of lines:
the running maximum of the arrival times. -/
def afterTimes (now : Nat) (pre : List (Nat × String)) : Nat :=
  pre.foldl (fun t p => max t p.1) now

theorem afterTimes_cons (now : Nat) (p : Nat × String) (pre : List (Nat × String)) :
    afterTimes now (p :: pre) = afterTimes (max now p.1) pre := rfl

theorem le_afterTimes : ∀ (pre : List (Nat × String)) (now : Nat),
    now ≤ afterTimes now pre := by
  intro pre
  induction pre with
  | nil => intro now; exact Nat.le_refl now
  | cons p pre ih =>
    intro now
    calc now ≤ max now p.1 := Nat.le_max_left now p.1
    _ ≤ afterTimes (max now p.1) pre := ih (max now p.1)

theorem readLoop_head_parse (deadline now a : Nat) (s : String)
    (rest : List (Nat × String)) (closed : Bool) (j : Json)
    (h : now < deadline) (hp : loads s = some j) :
    readLoop deadline now ((a, s) :: rest) closed =
      .returns (some j) (max now a) rest := by
  rw [readLoop.eq_def]
  simp [h, hp]

theorem readLoop_head_junk (deadline now a : Nat) (s : String)
    (ls : List (Nat × String)) (closed : Bool)
    (h : now < deadline) (hp : loads s = none) :
    readLoop deadline now ((a, s) :: ls) closed =
      readLoop deadline (max now a) ls closed := by
  conv_lhs => rw [readLoop.eq_def]
  simp [h, hp]

theorem readLoop_nil_closed (deadline now : Nat) (h : now ≤ deadline) :
    readLoop deadline now [] true = .returns none deadline [] := by
  rw [readLoop.eq_def]
  by_cases hlt : now < deadline
  · simp [hlt, Nat.max_eq_right hlt.le]
  · have : now = deadline := Nat.le_antisymm h (Nat.not_lt.mp hlt)
    subst this
    simp [hlt]

theorem readLoop_nil_open (deadline now : Nat) (h : now < deadline) :
    readLoop deadline now [] false = .hangs := by
  rw [readLoop.eq_def]
  simp [h]

theorem readLoop_junk_run (deadline : Nat) (pre : List (Nat × String)) :
    ∀ (now : Nat) (ls : List (Nat × String)) (closed : Bool),
    (∀ p ∈ pre, loads p.2 = none) →
    afterTimes now pre < deadline →
    readLoop deadline now (pre ++ ls) closed =
      readLoop deadline (afterTimes now pre) ls closed := by
  induction pre with
  | nil => intro now ls closed _ _; rfl
  | cons p pre ih =>
    intro now ls closed hjunk hb
    obtain ⟨a, s⟩ := p
    rw [List.cons_append,
      readLoop_head_junk deadline now a s (pre ++ ls) closed
        (Nat.lt_of_le_of_lt (Nat.le_max_left now a)
          (Nat.lt_of_le_of_lt (le_afterTimes pre (max now a)) hb))
        (hjunk (a, s) (List.mem_cons_self _ _)),
      afterTimes_cons]
    exact ih (max now a) ls closed
      (fun q hq => hjunk q (List.mem_cons_of_mem _ hq)) hb

/-! ## Claim theorems -/

/-- C1, counterexample. The claim says the response consumed by a
step's wait has the id of that step's request and that other ids are
discarded. In the code read_jsonrpc performs no id matching at all: for
the initialize step (request id 1, timeout 15), a stream whose first
line is a well-formed response with id 999 has that response consumed
and returned by the wait, even though 999 is the id of no pending
request. -/
theorem wait_consumes_foreign_id :
    read_jsonrpc 0 15 [(2, staleLine)] false =
      .returns (some staleResponse) 2 [] ∧
    jsonGet staleResponse "id" = some (.num 999) ∧
    jsonGet initRequest "id" = some (.num 1) ∧
    Json.num 999 ≠ Json.num 1 := by
  refine ⟨by rfl, by rfl, by rfl, ?_⟩
  simp

/-- C1, amended. read_jsonrpc returns the first JSON-decodable line of
the stream, whatever id that line carries: lines that fail to decode
are skipped, no response is ever discarded because of its id, and the
lines after the returned one — including late responses to earlier,
timed-out requests — remain in the stream for future waits to consume. -/
theorem wait_returns_first_decodable
    (deadline now : Nat) (pre : List (Nat × String)) (a : Nat) (s : String)
    (rest : List (Nat × String)) (closed : Bool) (j : Json)
    (hjunk : ∀ p ∈ pre, loads p.2 = none)
    (hb : afterTimes now pre < deadline)
    (hp : loads s = some j) :
    readLoop deadline now (pre ++ (a, s) :: rest) closed =
      .returns (some j) (max (afterTimes now pre) a) rest := by
  rw [readLoop_junk_run deadline pre now ((a, s) :: rest) closed hjunk hb]
  exact readLoop_head_parse deadline (afterTimes now pre) a s rest closed j hb hp

/-- C1, witness for the amended theorem: a noise line followed by the
id-999 response; the wait skips the noise and returns the response,
leaving nothing in the stream. -/
theorem wait_returns_first_decodable_witness :
    readLoop 15 0 [(1, junkLine), (2, staleLine)] false =
      .returns (some staleResponse) 2 [] := by
  have h := wait_returns_first_decodable 15 0 [(1, junkLine)] 2 staleLine []
    false staleResponse
    (by
      intro p hp
      rcases List.mem_singleton.mp hp with rfl
      rfl)
    (by decide) (by rfl)
  simpa using h

/-- C2, counterexample. The claim bounds every wait by its deadline D
plus a small slack for every stream behaviour, including one producing
no further lines. In the code the deadline is only checked between
readline calls and readline blocks: with deadline 10 and an open,
silent stream the wait never returns at all, and a response line
arriving at time 1000 is still consumed and returned at time 1000,
unboundedly later than the deadline. -/
theorem wait_misses_deadline :
    read_jsonrpc 0 10 [] false = .hangs ∧
    read_jsonrpc 0 10 [(1000, staleLine)] false =
      .returns (some staleResponse) 1000 [] ∧
    0 + 10 < 1000 := by
  exact ⟨by rfl, by rfl, by decide⟩

/-- C2, amended. Timing of read_jsonrpc: (a) at end-of-file the wait
returns None exactly when the deadline start + timeout elapses; (b) a
decodable line is returned no earlier than its arrival time — with no
upper bound tied to the deadline, since a line arriving late is still
consumed; (c) on an open stream with no line available the wait never
returns. -/
theorem read_jsonrpc_timing :
    (∀ start timeout : Nat,
      read_jsonrpc start timeout [] true = .returns none (start + timeout) []) ∧
    (∀ (deadline now a : Nat) (s : String) (rest : List (Nat × String))
       (closed : Bool) (j : Json), now < deadline → loads s = some j →
      readLoop deadline now ((a, s) :: rest) closed =
        .returns (some j) (max now a) rest ∧ a ≤ max now a) ∧
    (∀ deadline now : Nat, now < deadline →
      readLoop deadline now [] false = .hangs) := by
  refine ⟨?_, ?_, ?_⟩
  · intro start timeout
    exact readLoop_nil_closed (start + timeout) start (Nat.le_add_right start timeout)
  · intro deadline now a s rest closed j h hp
    exact ⟨readLoop_head_parse deadline now a s rest closed j h hp,
      Nat.le_max_right now a⟩
  · intro deadline now h
    exact readLoop_nil_open deadline now h

/-- C2, witness: a response arriving at time 3 before deadline 10 is
returned at time 3, and an open silent stream hangs. -/
theorem read_jsonrpc_timing_witness :
    readLoop 10 0 [(3, staleLine)] true = .returns (some staleResponse) 3 [] ∧
    readLoop 10 0 [] false = .hangs := by
  constructor
  · have h := (read_jsonrpc_timing.2.1 10 0 3 staleLine [] true staleResponse
      (by decide) (by rfl)).1
    simpa using h
  · exact read_jsonrpc_timing.2.2 10 0 (by decide)

/-- C7. A line json.loads rejects is skipped inside the same wait: the
loop's outcome is exactly the outcome of the loop on the remaining
lines (so a junk line can never surface as a failure by itself), and
when the next line decodes before the deadline, that well-formed
response is still returned by the same wait. -/
theorem junk_lines_skipped :
    (∀ (deadline now a : Nat) (s : String) (ls : List (Nat × String))
       (closed : Bool), now < deadline → loads s = none →
      readLoop deadline now ((a, s) :: ls) closed =
        readLoop deadline (max now a) ls closed) ∧
    (∀ (deadline now a : Nat) (s : String) (a2 : Nat) (s2 : String)
       (rest : List (Nat × String)) (closed : Bool) (j : Json),
      max now a < deadline → loads s = none → loads s2 = some j →
      readLoop deadline now ((a, s) :: (a2, s2) :: rest) closed =
        .returns (some j) (max (max now a) a2) rest) := by
  constructor
  · intro deadline now a s ls closed h hp
    exact readLoop_head_junk deadline now a s ls closed h hp
  · intro deadline now a s a2 s2 rest closed j hb hj hp
    rw [readLoop_head_junk deadline now a s ((a2, s2) :: rest) closed
      (Nat.lt_of_le_of_lt (Nat.le_max_left now a) hb) hj]
    exact readLoop_head_parse deadline (max now a) a2 s2 rest closed j hb hp

/-- C7, witness: with a noise line at time 1 and a well-formed response
at time 2 (deadline 10), the junk is skipped and the response returned
within the same wait. -/
theorem junk_lines_skipped_witness :
    readLoop 10 0 [(1, junkLine), (2, staleLine)] true =
      .returns (some staleResponse) 2 [] := by
  have h := junk_lines_skipped.2 10 0 1 junkLine 2 staleLine [] true
    staleResponse (by decide) (by rfl) (by rfl)
  simpa using h

/-- C10. When the subprocess has died and its stdout is at end-of-file,
readline keeps returning the empty string: the loop spins until the
full timeout has elapsed and read_jsonrpc returns None — exactly the
shape of a timeout, not a distinct error — so with every response
None, all four steps record failures and the scenario reports failure. -/
theorem eof_observed_as_timeout :
    (∀ start timeout : Nat,
      read_jsonrpc start timeout [] true = .returns none (start + timeout) []) ∧
    run_tests none none none none = .ok (0, 4) ∧
    test_mcp_server none none none none = false := by
  refine ⟨?_, by rfl, by rfl⟩
  intro start timeout
  exact readLoop_nil_closed (start + timeout) start (Nat.le_add_right start timeout)

/-- The exact line send_jsonrpc writes for the tools/list step. -/
def toolsListLine : String :=
  "\x7b\"jsonrpc\": \"2.0\", \"method\": \"tools/list\", \"id\": 2\x7d\n"

/-- C4, counterexample. The claim says the serialized tools/list
request line contains a params member equal to the empty object. The
call site (line 102) does pass `{}`, but `if params:` treats the empty
dict as absent, so the line that is written carries no params member at
all: decoding the actual line yields a request whose params lookup is
none, not the empty object. -/
theorem tools_list_line_lacks_params :
    loads (request_line "tools/list" (some (.obj [])) 2) =
      some toolsListRequest ∧
    jsonGet toolsListRequest "params" ≠ some (.obj []) := by
  refine ⟨by rfl, ?_⟩
  intro h
  simp [toolsListRequest, send_jsonrpc, truthy, jsonGet, lookupKey] at h

/-- C4, amended. The tools/list step passes the empty object as the
params argument, but because `if params:` drops falsy params, the
serialized request line is exactly
`{"jsonrpc": "2.0", "method": "tools/list", "id": 2}` followed by a
newline, with no params member. -/
theorem tools_list_request_shape :
    request_line "tools/list" (some (.obj [])) 2 = toolsListLine ∧
    toolsListRequest =
      .obj [("jsonrpc", .str "2.0"), ("method", .str "tools/list"),
            ("id", .num 2)] ∧
    jsonGet toolsListRequest "params" = none := by
  exact ⟨by rfl, by rfl, by rfl⟩

/-- C8, counterexample. The claim says decode(encode(request))
preserves id, method and params, "including when params is the empty
object". Precisely in that case the round trip loses the params field:
the tools/list request is built from params = {}, yet the decoded line
is a request with no params member at all. -/
theorem roundtrip_drops_empty_params :
    loads (request_line "tools/list" (some (.obj [])) 2) =
      some toolsListRequest ∧
    jsonGet toolsListRequest "method" = some (.str "tools/list") ∧
    jsonGet toolsListRequest "id" = some (.num 2) ∧
    jsonGet toolsListRequest "params" = none ∧
    some (Json.obj []) ≠ (none : Option Json) := by
  exact ⟨by rfl, by rfl, by rfl, by rfl, by simp⟩

/-- C8, amended. For every request a step builds, decoding the encoded
newline-terminated line reconstructs the request exactly as sent: id,
method and params are all preserved for the three requests whose params
are non-empty, and for tools/list — whose params argument is the empty
object — id and method are preserved while the params member, dropped
at encode time by `if params:`, is absent from the decoded request. -/
theorem step_requests_roundtrip :
    loads (request_line "initialize" (some initParams) 1) = some initRequest ∧
    jsonGet initRequest "params" = some initParams ∧
    loads (request_line "tools/call" (some getStatusParams) 3) =
      some getStatusRequest ∧
    jsonGet getStatusRequest "params" = some getStatusParams ∧
    loads (request_line "tools/call" (some searchCodeParams) 4) =
      some searchCodeRequest ∧
    jsonGet searchCodeRequest "params" = some searchCodeParams ∧
    loads (request_line "tools/list" (some (.obj [])) 2) =
      some toolsListRequest ∧
    jsonGet toolsListRequest "method" = some (.str "tools/list") ∧
    jsonGet toolsListRequest "id" = some (.num 2) ∧
    jsonGet toolsListRequest "params" = none := by
  exact ⟨by rfl, by rfl, by rfl, by rfl, by rfl, by rfl, by rfl, by rfl,
    by rfl, by rfl⟩

/-- C9. The shutdown path of test_mcp_server: whatever the scenario
body did — finished with either flag or raised an exception — the
finally block runs, cooperative termination is requested, and the whole
shutdown takes at most the grace period plus the bounded forced-kill
overhead, even when the subprocess ignores the terminate request. -/
theorem terminate_within_grace_plus_kill
    (body : BodyOutcome) (exitsAfter : Option Nat) (killCost : Nat) :
    (run_with_cleanup body exitsAfter killCost).2.duration ≤
      gracePeriod + killCost ∧
    (run_with_cleanup body exitsAfter killCost).2.termRequested = true := by
  cases body <;> cases exitsAfter <;>
    simp [run_with_cleanup, terminate_shutdown, gracePeriod] <;>
    split_ifs with h <;> simp <;> omega

/-- Characterization of run_tests: the first raising step's error
propagates, and with all four verdicts available the counters are the
sums of the per-step contributions. -/
theorem run_tests_eq (r1 r2 r3 r4 : Option Json) :
    run_tests r1 r2 r3 r4 =
      match initStep r1, toolsListStep r2, getStatusStep r3, searchCodeStep r4 with
      | .ok v1, .ok v2, .ok v3, .ok v4 =>
        .ok ((if v1 then 1 else 0) + (if v2 then 1 else 0) +
             (if v3 then 1 else 0) + (if v4 then 1 else 0),
             (if v1 then 0 else 1) + (if v2 then 0 else 1) +
             (if v3 then 0 else 1) + (if v4 then 0 else 1))
      | .error e, _, _, _ => .error e
      | .ok _, .error e, _, _ => .error e
      | .ok _, .ok _, .error e, _ => .error e
      | .ok _, .ok _, .ok _, .error e => .error e := by
  cases hx1 : initStep r1 <;> cases hx2 : toolsListStep r2 <;>
    cases hx3 : getStatusStep r3 <;> cases hx4 : searchCodeStep r4 <;>
    simp [run_tests, hx1, hx2, hx3, hx4, Bind.bind, Except.bind,
      Pure.pure, Except.pure] <;>
    first
      | rfl
      | (rename_i v1 v2 v3 v4
         cases v1 <;> cases v2 <;> cases v3 <;> cases v4 <;> rfl)

/-- C5, counterexample. The claim says every executed step records
exactly one Test Result whatever the response's shape, and that a
failed step never aborts the scenario. But a response whose result
member is present and not an object — a structurally wrong shape — is
not recorded at all: the step body raises AttributeError inside the
pass branch, the exception aborts the remaining steps (here three
responses that would each have recorded a result), and neither counter
is ever incremented. -/
theorem wrong_shape_aborts_scenario :
    hasResultCheck (some badResultResponse) = .ok true ∧
    initStep (some badResultResponse) = .error "AttributeError" ∧
    run_tests (some badResultResponse) (some okInitResponse)
      (some statusResponse) (some emptyTextResponse) =
        .error "AttributeError" ∧
    test_mcp_server (some badResultResponse) (some okInitResponse)
      (some statusResponse) (some emptyTextResponse) = false := by
  exact ⟨by rfl, by rfl, by rfl, by rfl⟩

/-- C5, amended. Provided no step's response makes the harness raise —
the response is absent (a timed-out wait), lacks a result member, or
has the object-shaped members the pass branches read — every step
records exactly one Test Result (one counter incremented once), failed
and timed-out steps included, and the runner still executes all later
steps: the final counters are the sums of all four per-step
contributions and always total 4. -/
theorem one_result_per_step
    (r1 r2 r3 r4 : Option Json) (v1 v2 v3 v4 : Bool)
    (h1 : initStep r1 = .ok v1) (h2 : toolsListStep r2 = .ok v2)
    (h3 : getStatusStep r3 = .ok v3) (h4 : searchCodeStep r4 = .ok v4) :
    run_tests r1 r2 r3 r4 = .ok
      ((if v1 then 1 else 0) + (if v2 then 1 else 0) +
       (if v3 then 1 else 0) + (if v4 then 1 else 0),
       (if v1 then 0 else 1) + (if v2 then 0 else 1) +
       (if v3 then 0 else 1) + (if v4 then 0 else 1)) ∧
    ((if v1 then (1 : Nat) else 0) + (if v2 then 1 else 0) +
     (if v3 then 1 else 0) + (if v4 then 1 else 0)) +
    ((if v1 then (0 : Nat) else 1) + (if v2 then 0 else 1) +
     (if v3 then 0 else 1) + (if v4 then 0 else 1)) = 4 := by
  constructor
  · cases v1 <;> cases v2 <;> cases v3 <;> cases v4 <;>
      simp [run_tests, h1, h2, h3, h4, Bind.bind, Except.bind,
        Pure.pure, Except.pure]
  · cases v1 <;> cases v2 <;> cases v3 <;> cases v4 <;> rfl

/-- C5, witness: a passing initialize response followed by three
timeouts yields one pass and three fails — four results for four
steps. -/
theorem one_result_per_step_witness :
    run_tests (some okInitResponse) none none none = .ok (1, 3) ∧
    (1 : Nat) + 3 = 4 := by
  have h := one_result_per_step (some okInitResponse) none none none
    true false false false (by rfl) (by rfl) (by rfl) (by rfl)
  simpa using h

/-- C6. The reporter and exit status: the harness exits 0 exactly when
all four steps passed; whenever the run completes with counters (p, f),
the overall success flag is f == 0, the counters total 4, and the
success rate p / (p + f) * 100 equals p * 25; and with no results the
success rate is defined as 0. -/
theorem reporter_success_and_exit (r1 r2 r3 r4 : Option Json) :
    (harness_exit r1 r2 r3 r4 = 0 ↔
      (initStep r1 = .ok true ∧ toolsListStep r2 = .ok true ∧
       getStatusStep r3 = .ok true ∧ searchCodeStep r4 = .ok true)) ∧
    (∀ p f : Nat, run_tests r1 r2 r3 r4 = .ok (p, f) →
      test_mcp_server r1 r2 r3 r4 = (f == 0) ∧ p + f = 4 ∧
      success_rate p f = (p : ℚ) * 25) ∧
    success_rate 0 0 = 0 := by
  refine ⟨?_, ?_, by simp [success_rate]⟩
  · cases hx1 : initStep r1 <;> cases hx2 : toolsListStep r2 <;>
      cases hx3 : getStatusStep r3 <;> cases hx4 : searchCodeStep r4 <;>
      simp [harness_exit, test_mcp_server, run_tests_eq, hx1, hx2, hx3, hx4]
  · intro p f hpf
    rw [run_tests_eq] at hpf
    cases hx1 : initStep r1 <;> cases hx2 : toolsListStep r2 <;>
      cases hx3 : getStatusStep r3 <;> cases hx4 : searchCodeStep r4 <;>
      rw [hx1, hx2, hx3, hx4] at hpf <;> simp at hpf
    rename_i v1 v2 v3 v4
    obtain ⟨hp, hf⟩ := hpf
    subst hp; subst hf
    refine ⟨?_, ?_, ?_⟩
    · simp [test_mcp_server, run_tests_eq, hx1, hx2, hx3, hx4]
    · cases v1 <;> cases v2 <;> cases v3 <;> cases v4 <;> rfl
    · cases v1 <;> cases v2 <;> cases v3 <;> cases v4 <;>
        norm_num [success_rate]

/-- C6, witness: four timeouts give counters (0, 4), overall failure,
and a success rate of 0. -/
theorem reporter_success_and_exit_witness :
    test_mcp_server none none none none = ((4 : Nat) == 0) ∧
    (0 : Nat) + 4 = 4 ∧ success_rate 0 4 = (0 : ℚ) * 25 := by
  exact (reporter_success_and_exit none none none none).2.1 0 4 (by rfl)

/-- A successful lookup means some member has the key. -/
theorem lookupKey_any (kvs : List (String × Json)) (k : String) :
    ∀ v : Json, lookupKey kvs k = some v →
      kvs.any (fun kv => kv.1 = k) = true := by
  induction kvs with
  | nil => intro v h; simp [lookupKey] at h
  | cons p rest ih =>
    intro v h
    rw [lookupKey] at h
    cases hr : lookupKey rest k with
    | some w =>
      simp [List.any_cons]
      right
      have := ih w hr
      simpa using this
    | none =>
      rw [hr] at h
      by_cases hk : p.1 = k
      · simp [List.any_cons, hk]
      · simp [hk] at h

/-- The response shapes on which the search_code step body cannot
raise: the response is an object whose result member is an object, and
its content member, when present, is an array that is either empty or
starts with an object whose text member, when present, is a string.
This is the well-formedness the tools/call contract promises for
search_code responses. -/
def searchShapeOk (r : Json) : Bool :=
  match r with
  | .obj kvs =>
    match lookupKey kvs "result" with
    | some (.obj rkvs) =>
      match lookupKey rkvs "content" with
      | none => true
      | some (.arr []) => true
      | some (.arr (first :: _)) =>
        match first with
        | .obj ckvs =>
          match lookupKey ckvs "text" with
          | none => true
          | some (.str _) => true
          | some _ => false
        | _ => false
      | some _ => false
    | _ => false
  | _ => false

/-- The content sequence a step reads from a response:
response["result"].get("content", []). -/
def contentOf (r : Json) : Json :=
  match r with
  | .obj kvs =>
    match lookupKey kvs "result" with
    | some (.obj rkvs) => (lookupKey rkvs "content").getD (.arr [])
    | _ => .null
  | _ => .null

/-- C3, counterexample. The claim says every well-formed response
carrying a result object is recorded as a passed result for the
search_code step, even when the content sequence is empty. In the code
an empty content sequence takes the `✗ search_code returned no content`
branch and increments the FAILED counter: with passing responses for
the first three steps and an empty-content search response, the run
ends 3 passed / 1 failed. -/
theorem empty_content_recorded_failed :
    pyIn "result" emptyContentResponse = .ok true ∧
    searchCodeStep (some emptyContentResponse) = .ok false ∧
    run_tests (some okInitResponse) (some okInitResponse)
      (some statusResponse) (some emptyContentResponse) = .ok (3, 1) := by
  exact ⟨by rfl, by rfl, by rfl⟩

/-- C3, amended. For every well-formed search_code response (result is
an object, content well-shaped), the step's verdict is exactly the
truthiness of the content sequence: a non-empty content passes — even
when its first block's text is the empty string, the empty-index
outcome — while an empty or absent content sequence is recorded as a
failed result. -/
theorem search_code_verdict (r : Json) (h : searchShapeOk r = true) :
    searchCodeStep (some r) = .ok (truthy (contentOf r)) := by
  cases r with
  | null => simp [searchShapeOk] at h
  | bool b => simp [searchShapeOk] at h
  | num n => simp [searchShapeOk] at h
  | str s => simp [searchShapeOk] at h
  | arr xs => simp [searchShapeOk] at h
  | obj kvs =>
    cases hres : lookupKey kvs "result" with
    | none => simp [searchShapeOk, hres] at h
    | some res =>
      cases res with
      | null => simp [searchShapeOk, hres] at h
      | bool b => simp [searchShapeOk, hres] at h
      | num n => simp [searchShapeOk, hres] at h
      | str s => simp [searchShapeOk, hres] at h
      | arr xs => simp [searchShapeOk, hres] at h
      | obj rkvs =>
        have hany : kvs.any (fun kv => kv.1 = "result") = true :=
          lookupKey_any kvs "result" (.obj rkvs) hres
        have hne : kvs.isEmpty = false := by
          cases kvs with
          | nil => simp [lookupKey] at hres
          | cons a b => rfl
        cases hc : lookupKey rkvs "content" with
        | none =>
          simp [searchCodeStep, hasResultCheck, truthy, hne, pyIn, hany,
            pyIndexKey, hres, pyGet, hc, contentOf,
            Bind.bind, Except.bind, Pure.pure, Except.pure]
        | some content =>
          cases content with
          | null => simp [searchShapeOk, hres, hc] at h
          | bool b => simp [searchShapeOk, hres, hc] at h
          | num n => simp [searchShapeOk, hres, hc] at h
          | str s => simp [searchShapeOk, hres, hc] at h
          | obj ckvs => simp [searchShapeOk, hres, hc] at h
          | arr blocks =>
            cases blocks with
            | nil =>
              simp [searchCodeStep, hasResultCheck, truthy, hne, pyIn, hany,
                pyIndexKey, hres, pyGet, hc, contentOf,
                Bind.bind, Except.bind, Pure.pure, Except.pure]
            | cons first rest =>
              cases first with
              | null => simp [searchShapeOk, hres, hc] at h
              | bool b => simp [searchShapeOk, hres, hc] at h
              | num n => simp [searchShapeOk, hres, hc] at h
              | str s => simp [searchShapeOk, hres, hc] at h
              | arr xs => simp [searchShapeOk, hres, hc] at h
              | obj ckvs =>
                cases ht : lookupKey ckvs "text" with
                | none =>
                  simp [searchCodeStep, hasResultCheck, truthy, hne, pyIn,
                    hany, pyIndexKey, hres, pyGet, hc, ht, contentOf,
                    pyIndexZero, String.isEmpty,
                    Bind.bind, Except.bind, Pure.pure, Except.pure]
                | some tv =>
                  cases tv with
                  | null => simp [searchShapeOk, hres, hc, ht] at h
                  | bool b => simp [searchShapeOk, hres, hc, ht] at h
                  | num n => simp [searchShapeOk, hres, hc, ht] at h
                  | arr xs => simp [searchShapeOk, hres, hc, ht] at h
                  | obj o => simp [searchShapeOk, hres, hc, ht] at h
                  | str t =>
                    by_cases hts : t.isEmpty
                    · simp [searchCodeStep, hasResultCheck, truthy, hne, pyIn,
                        hany, pyIndexKey, hres, pyGet, hc, ht, hts, contentOf,
                        pyIndexZero, pyLen,
                        Bind.bind, Except.bind, Pure.pure, Except.pure]
                    · simp [searchCodeStep, hasResultCheck, truthy, hne, pyIn,
                        hany, pyIndexKey, hres, pyGet, hc, ht, hts, contentOf,
                        pyIndexZero, pyLen,
                        Bind.bind, Except.bind, Pure.pure, Except.pure]

/-- C3, witness: the empty-index response — one content block with an
empty text — is well-formed and its non-empty content sequence makes
the step pass. -/
theorem search_code_verdict_witness :
    searchCodeStep (some emptyTextResponse) =
      .ok (truthy (contentOf emptyTextResponse)) ∧
    truthy (contentOf emptyTextResponse) = true := by
  exact ⟨search_code_verdict emptyTextResponse (by rfl), by rfl⟩
